import Mathlib

/-!
Verification development for `fetch_wb_fbw_supplies.py`, a full-refresh sync of
FBW supply records: multi-axis paginated fetch from an HTTP API, deduplication
into an identity-keyed mapping, and delete-then-insert reconciliation against a
store.  Every definition below is a shallow embedding of the corresponding
Python code (line numbers refer to the script).
-/

namespace FbwSupplies

/-- JSON scalar values as the script distinguishes them: `supplyID` and
`preorderID` can arrive as integers or as strings. -/
inductive JVal where
  | jint (n : Int)
  | jstr (s : String)
deriving DecidableEq, Repr

/-- Python `str(v)` on a scalar: integers print in decimal, strings unchanged. -/
def pyStr : JVal → String
  | .jint n => toString n
  | .jstr s => s

/-- Decimal value of a digit list. -/
def digitsVal (cs : List Char) : Nat :=
  cs.foldl (fun a c => a * 10 + (c.toNat - 48)) 0

/-- Python whitespace: the characters `str.strip()` and `int()` ignore. -/
def isPySpace (c : Char) : Bool :=
  c = ' ' ∨ c = '\t' ∨ c = '\n' ∨ c = '\r' ∨ c = '\x0b' ∨ c = '\x0c'

/-- Python `s.strip()`: drop leading and trailing whitespace. -/
def pyStrip (s : String) : String :=
  String.mk (((s.data.dropWhile isPySpace).reverse.dropWhile isPySpace).reverse)

/-- Python `int(s)` on a string: strip whitespace, optional sign, digits;
`none` models the `ValueError` raised on anything else. -/
def pyIntOfStr (s : String) : Option Int :=
  match (pyStrip s).data with
  | [] => none
  | c :: rest =>
    if c = '+' then
      if rest ≠ [] ∧ rest.all Char.isDigit then some (digitsVal rest) else none
    else if c = '-' then
      if rest ≠ [] ∧ rest.all Char.isDigit then some (-(digitsVal rest : Int)) else none
    else
      if (c :: rest).all Char.isDigit then some (digitsVal (c :: rest)) else none

/-- Python `int(v)` on a scalar JSON value. -/
def pyInt : JVal → Option Int
  | .jint n => some n
  | .jstr s => pyIntOfStr s

/-- A raw record as returned by the WB API (the fields the script reads,
lines 91-122); every field may be absent (`r.get` returning `None`). -/
structure Raw where
  supplyID : Option JVal := none
  preorderID : Option JVal := none
  phone : Option String := none
  createDate : Option String := none
  supplyDate : Option String := none
  factDate : Option String := none
  updatedDate : Option String := none
  statusID : Option Int := none
deriving DecidableEq, Repr

/-- A normalized row, shaped for the destination table (lines 113-123). -/
structure NRow where
  wb_key : String
  supply_id : Option JVal := none
  preorder_id : Option JVal := none
  phone : Option String := none
  create_date : Option String := none
  supply_date : Option String := none
  fact_date : Option String := none
  updated_date : Option String := none
  status_id : Option Int := none
deriving DecidableEq, Repr

/-- Lines 98-101 and 104-107: `try: f"S:{int(x)}" except: f"S:{x}"` — the
rendering of an identifier inside the key. -/
def keyRender (v : JVal) : String :=
  match pyInt v with
  | some n => toString n
  | none => pyStr v

/-- Lines 91-107: derivation of the stable primary key `wb_key`. -/
def wb_key_of (r : Raw) : String :=
  match r.supplyID with
  | some v => "S:" ++ keyRender v
  | none => "P:" ++ keyRender (r.preorderID.getD (JVal.jint 0))

/-- Lines 90-123: projection of one raw record into the table shape; timestamp
fields pass through unmodified if present, else null. -/
def normalize_row (r : Raw) : NRow :=
  { wb_key := wb_key_of r
    supply_id := r.supplyID
    preorder_id := r.preorderID
    phone := r.phone
    create_date := r.createDate
    supply_date := r.supplyDate
    fact_date := r.factDate
    updated_date := r.updatedDate
    status_id := r.statusID }

/-- Lines 83-124: `normalize_rows`. -/
def normalize_rows (rows : List Raw) : List NRow :=
  rows.map normalize_row

/-- Claim C1: for every raw record, normalization derives the identity key as
exactly `"S:"` followed by the supply identifier when `supplyID` is non-null,
and otherwise as exactly `"P:"` followed by the preorder identifier, a null
`preorderID` being treated as `0`; the derivation is a pure function of the
raw record (it depends only on the two identifier fields). -/
theorem c1_identity_derivation (r : Raw) :
    (∀ v, r.supplyID = some v → (normalize_row r).wb_key = "S:" ++ keyRender v) ∧
    (∀ n : Int, r.supplyID = some (JVal.jint n) →
      (normalize_row r).wb_key = "S:" ++ toString n) ∧
    (∀ m : Int, r.supplyID = none → r.preorderID = some (JVal.jint m) →
      (normalize_row r).wb_key = "P:" ++ toString m) ∧
    (r.supplyID = none → r.preorderID = none → (normalize_row r).wb_key = "P:0") ∧
    (∀ r2 : Raw, r.supplyID = r2.supplyID → r.preorderID = r2.preorderID →
      (normalize_row r).wb_key = (normalize_row r2).wb_key) := by
  refine ⟨?_, ?_, ?_, ?_, ?_⟩
  · intro v hv
    simp [normalize_row, wb_key_of, hv]
  · intro n hn
    simp [normalize_row, wb_key_of, hn, keyRender, pyInt]
  · intro m hs hp
    simp [normalize_row, wb_key_of, hs, hp, keyRender, pyInt]
  · intro hs hp
    simp [normalize_row, wb_key_of, hs, hp, keyRender, pyInt]
    rfl
  · intro r2 hs hp
    simp [normalize_row, wb_key_of, hs, hp]

/-- Witness for C1 at concrete inputs. -/
theorem c1_identity_derivation_witness :
    (normalize_row { supplyID := some (JVal.jint 123) }).wb_key =
        "S:" ++ toString (123 : Int) ∧
    (normalize_row { preorderID := some (JVal.jint 7) }).wb_key =
        "P:" ++ toString (7 : Int) ∧
    (normalize_row ({} : Raw)).wb_key = "P:0" :=
  ⟨(c1_identity_derivation _).2.1 123 rfl,
   (c1_identity_derivation _).2.2.1 7 rfl rfl,
   (c1_identity_derivation _).2.2.2.1 rfl rfl⟩

/-- Python dict assignment `d[k] = v` on an insertion-ordered association
list: replace the binding in place when the key is present, else append a new
binding at the end (CPython dict semantics). -/
def dictInsert : List (String × NRow) → String → NRow → List (String × NRow)
  | [], k, v => [(k, v)]
  | p :: rest, k, v => if p.1 = k then (k, v) :: rest else p :: dictInsert rest k v

/-- Line 159: `combined[item["wb_key"]] = item`. -/
def mergeStep (m : List (String × NRow)) (item : NRow) : List (String × NRow) :=
  dictInsert m item.wb_key item

/-- The merge mapping built by folding normalized records in processing order
(lines 152-159, all pages of all axes). -/
def mergeAll (items : List NRow) : List (String × NRow) :=
  items.foldl mergeStep []

/-- Dict lookup (first binding of the key). -/
def dictFind (m : List (String × NRow)) (k : String) : Option NRow :=
  match m with
  | [] => none
  | p :: rest => if p.1 = k then some p.2 else dictFind rest k

/-- Number of entries of the mapping carrying key `k`. -/
def countKey (m : List (String × NRow)) (k : String) : Nat :=
  (m.filter (fun p => p.1 = k)).length

/-- The dict invariant: keys occur at most once. -/
def nodupKeys (m : List (String × NRow)) : Prop :=
  (m.map Prod.fst).Nodup

/-- Every entry of the merge mapping is keyed by its value's own `wb_key`. -/
def wellKeyed (m : List (String × NRow)) : Prop :=
  ∀ p ∈ m, p.1 = p.2.wb_key

theorem mem_keys_dictInsert (m : List (String × NRow)) (k : String) (v : NRow)
    (a : String) (ha : a ∈ (dictInsert m k v).map Prod.fst) :
    a ∈ m.map Prod.fst ∨ a = k := by
  induction m with
  | nil =>
    simp only [dictInsert, List.map_cons, List.map_nil, List.mem_singleton] at ha
    exact Or.inr ha
  | cons p rest ih =>
    rw [dictInsert] at ha
    by_cases hp : p.1 = k
    · rw [if_pos hp] at ha
      simp only [List.map_cons, List.mem_cons] at ha ⊢
      rcases ha with ha | ha
      · exact Or.inr ha
      · exact Or.inl (Or.inr ha)
    · rw [if_neg hp] at ha
      simp only [List.map_cons, List.mem_cons] at ha ⊢
      rcases ha with ha | ha
      · exact Or.inl (Or.inl ha)
      · rcases ih ha with h1 | h1
        · exact Or.inl (Or.inr h1)
        · exact Or.inr h1

theorem nodupKeys_dictInsert (m : List (String × NRow)) (k : String) (v : NRow)
    (h : nodupKeys m) : nodupKeys (dictInsert m k v) := by
  induction m with
  | nil => simp [dictInsert, nodupKeys]
  | cons p rest ih =>
    unfold nodupKeys at h ⊢
    simp only [List.map_cons, List.nodup_cons] at h
    rw [dictInsert]
    by_cases hp : p.1 = k
    · rw [if_pos hp]
      simp only [List.map_cons, List.nodup_cons]
      exact ⟨hp ▸ h.1, h.2⟩
    · rw [if_neg hp]
      simp only [List.map_cons, List.nodup_cons]
      refine ⟨?_, ih h.2⟩
      intro hmem
      rcases mem_keys_dictInsert rest k v p.1 hmem with h1 | h1
      · exact h.1 h1
      · exact hp h1

theorem dictFind_dictInsert_self (m : List (String × NRow)) (k : String) (v : NRow) :
    dictFind (dictInsert m k v) k = some v := by
  induction m with
  | nil => simp [dictInsert, dictFind]
  | cons p rest ih =>
    rw [dictInsert]
    by_cases hp : p.1 = k
    · rw [if_pos hp, dictFind, if_pos rfl]
    · rw [if_neg hp, dictFind, if_neg hp]
      exact ih

theorem dictFind_dictInsert_other (m : List (String × NRow)) (k k2 : String)
    (v : NRow) (h : k2 ≠ k) : dictFind (dictInsert m k v) k2 = dictFind m k2 := by
  induction m with
  | nil => simp [dictInsert, dictFind, Ne.symm h]
  | cons p rest ih =>
    rw [dictInsert]
    by_cases hp : p.1 = k
    · rw [if_pos hp, dictFind, dictFind, if_neg (fun he : k = k2 => h he.symm),
        if_neg (fun he : p.1 = k2 => h (hp ▸ he).symm)]
    · rw [if_neg hp, dictFind, dictFind]
      by_cases hq : p.1 = k2
      · rw [if_pos hq, if_pos hq]
      · rw [if_neg hq, if_neg hq]
        exact ih

theorem countKey_eq_zero (m : List (String × NRow)) (k : String)
    (h : ∀ q ∈ m, q.1 ≠ k) : countKey m k = 0 := by
  unfold countKey
  rw [List.length_eq_zero, List.filter_eq_nil]
  intro q hq
  simpa using h q hq

theorem countKey_dictInsert_self (m : List (String × NRow)) (k : String) (v : NRow)
    (h : nodupKeys m) : countKey (dictInsert m k v) k = 1 := by
  induction m with
  | nil => simp [dictInsert, countKey]
  | cons p rest ih =>
    have hrest : nodupKeys rest := by
      unfold nodupKeys at h ⊢
      simp only [List.map_cons, List.nodup_cons] at h
      exact h.2
    rw [dictInsert]
    by_cases hp : p.1 = k
    · rw [if_pos hp]
      have hz : countKey rest k = 0 := by
        apply countKey_eq_zero
        intro q hq hqk
        unfold nodupKeys at h
        simp only [List.map_cons, List.nodup_cons] at h
        exact h.1 (hp ▸ hqk ▸ List.mem_map_of_mem Prod.fst hq)
      unfold countKey at hz ⊢
      simp [List.filter_cons, hz]
    · rw [if_neg hp]
      unfold countKey
      rw [List.filter_cons]
      simp only [decide_eq_true_eq, if_neg hp]
      exact ih hrest

theorem countKey_dictInsert_other (m : List (String × NRow)) (k k2 : String)
    (v : NRow) (h : k2 ≠ k) : countKey (dictInsert m k v) k2 = countKey m k2 := by
  induction m with
  | nil => simp [dictInsert, countKey, Ne.symm h]
  | cons p rest ih =>
    rw [dictInsert]
    by_cases hp : p.1 = k
    · rw [if_pos hp]
      unfold countKey
      rw [List.filter_cons, List.filter_cons]
      simp only [decide_eq_true_eq]
      rw [if_neg (fun he : k = k2 => h he.symm), if_neg (fun he : p.1 = k2 => h (hp ▸ he).symm)]
    · rw [if_neg hp]
      unfold countKey
      rw [List.filter_cons, List.filter_cons]
      simp only [decide_eq_true_eq]
      by_cases hq : p.1 = k2
      · rw [if_pos hq, if_pos hq]
        unfold countKey at ih
        simp [ih]
      · rw [if_neg hq, if_neg hq]
        exact ih

theorem wellKeyed_mergeStep (m : List (String × NRow)) (item : NRow)
    (h : wellKeyed m) : wellKeyed (mergeStep m item) := by
  unfold mergeStep
  induction m with
  | nil =>
    intro p hp
    simp only [dictInsert, List.mem_singleton] at hp
    subst hp
    rfl
  | cons q rest ih =>
    rw [dictInsert]
    by_cases hq : q.1 = item.wb_key
    · rw [if_pos hq]
      intro p hp
      rcases List.mem_cons.mp hp with hp | hp
      · subst hp; rfl
      · exact h p (List.mem_cons_of_mem q hp)
    · rw [if_neg hq]
      intro p hp
      rcases List.mem_cons.mp hp with hp | hp
      · subst hp
        exact h p (List.mem_cons_self p rest)
      · exact ih (fun r hr => h r (List.mem_cons_of_mem q hr)) p hp

theorem nodupKeys_mergeStep (m : List (String × NRow)) (item : NRow)
    (h : nodupKeys m) : nodupKeys (mergeStep m item) :=
  nodupKeys_dictInsert m item.wb_key item h

theorem mergeAll_invariants (items : List NRow) :
    nodupKeys (mergeAll items) ∧ wellKeyed (mergeAll items) := by
  unfold mergeAll
  have hgen : ∀ m, nodupKeys m → wellKeyed m →
      nodupKeys (items.foldl mergeStep m) ∧ wellKeyed (items.foldl mergeStep m) := by
    induction items with
    | nil => intro m h1 h2; exact ⟨h1, h2⟩
    | cons a rest ih =>
      intro m h1 h2
      exact ih (mergeStep m a) (nodupKeys_mergeStep m a h1) (wellKeyed_mergeStep m a h2)
  exact hgen [] (by simp [nodupKeys]) (by intro p hp; simp at hp)

/-- Line 148: the fixed page size. -/
def LIMIT : Nat := 1000

/-- One page of a well-behaved remote whose full (ordered) result set for an
axis is `data`: `fetch_chunk offset limit` returns the slice
`data[offset : offset + limit]`. -/
def pageAt (data : List Raw) (limit offset : Nat) : List Raw :=
  (data.drop offset).take limit

/-- Lines 153-162: the pagination loop of one axis, recorded as the list of
`(offset, page)` pairs it requests, in order.  The loop continues exactly when
a page holds `limit` records (`len(rows) < limit` breaks); the `0 < limit`
conjunct only rules out the `limit = 0` case, on which the Python loop never
terminates (unreachable: the script always passes `limit = 1000`). -/
def fetchPairs (data : List Raw) (limit offset : Nat) : List (Nat × List Raw) :=
  if h : 0 < limit ∧ limit ≤ (pageAt data limit offset).length then
    (offset, pageAt data limit offset) :: fetchPairs data limit (offset + limit)
  else
    [(offset, pageAt data limit offset)]
termination_by data.length - offset
decreasing_by
  simp only [pageAt, List.length_take, List.length_drop] at h
  omega

theorem fetchPairs_ne_nil (data : List Raw) (limit offset : Nat) :
    fetchPairs data limit offset ≠ [] := by
  rw [fetchPairs]
  split <;> simp

theorem fetchPairs_join (data : List Raw) (limit offset : Nat) (hl : 0 < limit) :
    ((fetchPairs data limit offset).map Prod.snd).flatten = data.drop offset := by
  induction offset using fetchPairs.induct data limit with
  | case1 offset h ih =>
    rw [fetchPairs, dif_pos h, List.map_cons, List.flatten_cons, ih]
    show pageAt data limit offset ++ data.drop (offset + limit) = data.drop offset
    simp only [pageAt]
    rw [← List.drop_drop]
    exact List.take_append_drop limit (data.drop offset)
  | case2 offset h =>
    rw [fetchPairs, dif_neg h, List.map_cons, List.map_nil, List.flatten_cons,
      List.flatten_nil, List.append_nil]
    show (data.drop offset).take limit = data.drop offset
    apply List.take_of_length_le
    simp only [pageAt, List.length_take, List.length_drop] at h
    simp only [List.length_drop]
    omega

theorem fetchPairs_offsets (data : List Raw) (limit offset : Nat) :
    (fetchPairs data limit offset).map Prod.fst =
      (List.range (fetchPairs data limit offset).length).map
        (fun i => offset + i * limit) := by
  induction offset using fetchPairs.induct data limit with
  | case1 offset h ih =>
    rw [fetchPairs, dif_pos h]
    simp only [List.map_cons, List.length_cons, List.range_succ_eq_map,
      List.map_map]
    refine congrArg₂ List.cons (by omega) ?_
    rw [ih]
    apply List.map_congr_left
    intro i _
    simp only [Function.comp_apply, Nat.succ_eq_add_one]
    ring
  | case2 offset h =>
    rw [fetchPairs, dif_neg h]
    simp [List.range_succ]

theorem fetchPairs_full_pages (data : List Raw) (limit offset : Nat) :
    ∀ p ∈ (fetchPairs data limit offset).dropLast, p.2.length = limit := by
  induction offset using fetchPairs.induct data limit with
  | case1 offset h ih =>
    rw [fetchPairs, dif_pos h,
      List.dropLast_cons_of_ne_nil (fetchPairs_ne_nil data limit (offset + limit))]
    intro p hp
    rcases List.mem_cons.mp hp with hp | hp
    · subst hp
      have hle : (pageAt data limit offset).length ≤ limit := by
        simp only [pageAt, List.length_take, List.length_drop]
        omega
      show (pageAt data limit offset).length = limit
      omega
    · exact ih p hp
  | case2 offset h =>
    rw [fetchPairs, dif_neg h]
    simp

theorem getLast?_cons_ne_nil {α : Type} (a : α) (l : List α) (h : l ≠ []) :
    (a :: l).getLast? = l.getLast? := by
  cases l with
  | nil => exact absurd rfl h
  | cons b t => simp [List.getLast?_cons_cons]

theorem fetchPairs_last_short (data : List Raw) (limit offset : Nat)
    (hl : 0 < limit) :
    ∀ p, (fetchPairs data limit offset).getLast? = some p → p.2.length < limit := by
  induction offset using fetchPairs.induct data limit with
  | case1 offset h ih =>
    intro p hp
    rw [fetchPairs, dif_pos h,
      getLast?_cons_ne_nil _ _ (fetchPairs_ne_nil data limit (offset + limit))] at hp
    exact ih p hp
  | case2 offset h =>
    intro p hp
    rw [fetchPairs, dif_neg h] at hp
    simp only [List.getLast?_singleton, Option.some_inj] at hp
    subst hp
    show (pageAt data limit offset).length < limit
    simp only [pageAt, List.length_take, List.length_drop] at h ⊢
    omega

/-- Claim C3: with page size `L` (fixed by the script to `LIMIT = 1000`), the
fetch loop requests pages at offsets `0, L, 2L, ...`, stops exactly when a page
returns fewer than `L` records (every non-final page holds exactly `L` and the
final page fewer), and the concatenation of all pages equals the full result
set of the axis — no gaps and no duplicates across offsets. -/
theorem c3_pagination_exhaustion (data : List Raw) (limit : Nat) (hl : 0 < limit) :
    LIMIT = 1000 ∧
    ((fetchPairs data limit 0).map Prod.snd).flatten = data ∧
    (fetchPairs data limit 0).map Prod.fst =
      (List.range (fetchPairs data limit 0).length).map (fun i => i * limit) ∧
    (∀ p ∈ (fetchPairs data limit 0).dropLast, p.2.length = limit) ∧
    fetchPairs data limit 0 ≠ [] ∧
    (∀ p, (fetchPairs data limit 0).getLast? = some p → p.2.length < limit) := by
  refine ⟨rfl, ?_, ?_, fetchPairs_full_pages data limit 0,
    fetchPairs_ne_nil data limit 0, fetchPairs_last_short data limit 0 hl⟩
  · rw [fetchPairs_join data limit 0 hl]
    rfl
  · rw [fetchPairs_offsets data limit 0]
    simp

/-- A concrete raw record with the given supply id. -/
def rawOfId (n : Int) : Raw :=
  { supplyID := some (JVal.jint n) }

/-- A concrete five-record axis result set. -/
def sampleAxis : List Raw :=
  [rawOfId 1, rawOfId 2, rawOfId 3, rawOfId 4, rawOfId 5]

/-- Witness for C3 on a concrete five-record axis fetched two records at a
time: pages at offsets 0, 2, 4; the last page is short. -/
theorem c3_pagination_exhaustion_witness :
    0 < 2 ∧
    (LIMIT = 1000 ∧
     ((fetchPairs sampleAxis 2 0).map Prod.snd).flatten = sampleAxis ∧
     (fetchPairs sampleAxis 2 0).map Prod.fst =
       (List.range (fetchPairs sampleAxis 2 0).length).map (fun i => i * 2) ∧
     (∀ p ∈ (fetchPairs sampleAxis 2 0).dropLast, p.2.length = 2) ∧
     fetchPairs sampleAxis 2 0 ≠ [] ∧
     (∀ p, (fetchPairs sampleAxis 2 0).getLast? = some p → p.2.length < 2)) :=
  ⟨by decide, c3_pagination_exhaustion sampleAxis 2 (by decide)⟩

/-- The JSON body of a WB response: either a list of records or something
else (carried as its printed text). -/
inductive WbBody where
  | arr (rows : List Raw)
  | other (txt : String)
deriving DecidableEq, Repr

/-- One HTTP response: status code, parsed JSON body, raw text. -/
structure Resp where
  status : Nat
  body : WbBody
  text : String
deriving DecidableEq, Repr

/-- Line 67: the fixed backoff schedule, one entry per attempt. -/
def backoffs : List Nat := [0, 2, 5]

/-- A date filter of the request body (line 62): `{"start": ..., "end": ...,
"Type": ...}`; the `Type` value is a `JVal` so that the integer and the string
encodings stay distinguishable. -/
structure DateFilter where
  start : String
  end_ : String
  type : JVal
deriving DecidableEq, Repr

/-- The request body of lines 61-64. -/
structure ReqBody where
  dates : List DateFilter
  statusIDs : List Int
deriving DecidableEq, Repr

/-- One POST to the WB API: JSON body plus the `limit`/`offset` query
parameters of line 65. -/
structure Request where
  body : ReqBody
  limit : Nat
  offset : Nat
deriving DecidableEq, Repr

/-- Lines 61-65: body and params are built once per `fetch_chunk` call, and
the `Type` field receives the integer-valued `date_type` variable. -/
def buildRequest (offset limit : Nat) (date_start date_end : String)
    (statuses : List Int) (date_type : Int) : Request :=
  { body := { dates := [{ start := date_start, end_ := date_end,
                          type := JVal.jint date_type }]
              statusIDs := statuses }
    limit := limit
    offset := offset }

/-- Lines 68-81: the retry loop of `fetch_chunk`, driven by the responses the
remote gives to consecutive attempts (`net i` answers the request with global
index `base + i`).  `used` counts attempts already made (Python's `attempt` is
`used + 1`), `remaining` counts iterations left (initially `len(backoffs)`).
Returns the outcome and the number of attempts consumed.  On 200 with a list
body the rows are returned; a 200 body that is not a list is fatal
(`Unexpected WB response`); 429 retries while `attempt < len(backoffs)`; any
other status is immediately fatal with the response text in the message.  The
`remaining = 0` branch is line 81's unreachable `return []`. -/
def fetch_chunk_loop (net : Nat → Resp) (base : Nat) :
    Nat → Nat → Except String (List Raw) × Nat
  | used, 0 => (.ok [], used)
  | used, rem + 1 =>
    let resp := net (base + used)
    if resp.status = 200 then
      match resp.body with
      | .arr rows => (.ok rows, used + 1)
      | .other t => (.error ("Unexpected WB response: " ++ t), used + 1)
    else if resp.status = 429 ∧ used + 1 < backoffs.length then
      fetch_chunk_loop net base (used + 1) rem
    else
      (.error ("WB API " ++ toString resp.status ++ ": " ++ resp.text), used + 1)

/-- Lines 56-81: one `fetch_chunk` call; the result and the number of HTTP
requests it issued. -/
def fetch_chunk (net : Nat → Resp) (base : Nat) : Except String (List Raw) × Nat :=
  fetch_chunk_loop net base 0 backoffs.length

/-- The HTTP requests a single `fetch_chunk` call posts: every attempt re-posts
the same body and params (built once, lines 61-65). -/
def fetch_chunk_requests (net : Nat → Resp) (base : Nat) (offset limit : Nat)
    (date_start date_end : String) (statuses : List Int) (date_type : Int) :
    List Request :=
  List.replicate (fetch_chunk net base).2
    (buildRequest offset limit date_start date_end statuses date_type)

/-- Lines 45-47: `fail` exits the process with code 1; success paths reach
`sys.exit` only implicitly with code 0. -/
def pyExit {α : Type} : Except String α → Nat
  | .error _ => 1
  | .ok _ => 0

/-- Claim C4: under the 3-attempt backoff schedule, a response sequence
`[429, 429, 200]` succeeds and returns the 200 payload; four consecutive 429s
exhaust the schedule after the third request and terminate the process with a
non-zero exit; and any non-200 status other than 429 fails immediately (a
single request) and fatally, surfacing the response body in the error
message. -/
theorem c4_retry_boundary (net1 net2 net3 : Nat → Resp) (rows : List Raw) (s : Nat)
    (h1a : (net1 0).status = 429) (h1b : (net1 1).status = 429)
    (h1c : (net1 2).status = 200) (h1d : (net1 2).body = WbBody.arr rows)
    (h2 : ∀ i, i < 4 → (net2 i).status = 429)
    (h3a : (net3 0).status = s) (h3b : s ≠ 200) (h3c : s ≠ 429) :
    (fetch_chunk net1 0).1 = .ok rows ∧ (fetch_chunk net1 0).2 = 3 ∧
    (fetch_chunk net2 0).1 = .error ("WB API 429: " ++ (net2 2).text) ∧
    (fetch_chunk net2 0).2 = 3 ∧
    pyExit (fetch_chunk net2 0).1 = 1 ∧
    (fetch_chunk net3 0).1 = .error ("WB API " ++ toString s ++ ": " ++ (net3 0).text) ∧
    (fetch_chunk net3 0).2 = 1 ∧
    pyExit (fetch_chunk net3 0).1 = 1 := by
  have e429 : (200 : Nat) ≠ 429 := by decide
  refine ⟨?_, ?_, ?_, ?_, ?_, ?_, ?_, ?_⟩
  all_goals
    simp only [fetch_chunk, backoffs, List.length_cons, List.length_nil,
      fetch_chunk_loop]
  · simp [h1a, h1b, h1c, h1d]
  · simp [h1a, h1b, h1c, h1d]
  · have q0 := h2 0 (by omega)
    have q1 := h2 1 (by omega)
    have q2 := h2 2 (by omega)
    have hs : "WB API " ++ toString (429 : Nat) ++ ": " = "WB API 429: " := by decide
    simp [q0, q1, q2, hs]
  · have q0 := h2 0 (by omega)
    have q1 := h2 1 (by omega)
    have q2 := h2 2 (by omega)
    simp [q0, q1, q2]
  · have q0 := h2 0 (by omega)
    have q1 := h2 1 (by omega)
    have q2 := h2 2 (by omega)
    simp [pyExit, q0, q1, q2]
  · simp [h3a, h3b, h3c]
  · simp [h3a, h3b, h3c]
  · simp [pyExit, h3a, h3b, h3c]

/-- A network that answers 429 to the first `n` requests and then 200 with an
empty list. -/
def net429 (n : Nat) : Nat → Resp :=
  fun i => if i < n then { status := 429, body := .other "rate", text := "too many" }
           else { status := 200, body := .arr [], text := "[]" }

/-- A network that always answers 200 with an empty list. -/
def net200 : Nat → Resp :=
  fun _ => { status := 200, body := .arr [], text := "[]" }

/-- A network that always answers 500. -/
def net500 : Nat → Resp :=
  fun _ => { status := 500, body := .other "boom", text := "internal error" }

/-- Witness for C4 at concrete response sequences. -/
theorem c4_retry_boundary_witness :
    (fetch_chunk (net429 2) 0).1 = .ok [] ∧ (fetch_chunk (net429 2) 0).2 = 3 ∧
    (fetch_chunk (net429 9) 0).1 = .error ("WB API 429: " ++ (net429 9 2).text) ∧
    (fetch_chunk (net429 9) 0).2 = 3 ∧
    pyExit (fetch_chunk (net429 9) 0).1 = 1 ∧
    (fetch_chunk net500 0).1 =
      .error ("WB API " ++ toString (500 : Nat) ++ ": " ++ (net500 0).text) ∧
    (fetch_chunk net500 0).2 = 1 ∧
    pyExit (fetch_chunk net500 0).1 = 1 :=
  c4_retry_boundary (net429 2) (net429 9) net500 [] 500
    (by decide) (by decide) (by decide) (by decide)
    (fun i hi => by
      simp only [net429]
      rw [if_pos (show i < 9 from by omega)])
    (by decide) (by decide) (by decide)

/-- Claim C7 (amended): every HTTP request issued by a `fetch_chunk` call has
body `{"dates": [{"start": ..., "end": ..., "Type": ...}], "statusIDs": ...}`
with query parameters `limit` and `offset` — but the `Type` field carries the
integer code `date_type` (the legacy form), not the canonical string enum. -/
theorem c7_request_shape (net : Nat → Resp) (base offset limit : Nat)
    (date_start date_end : String) (statuses : List Int) (date_type : Int)
    (r : Request)
    (hr : r ∈ fetch_chunk_requests net base offset limit date_start date_end
            statuses date_type) :
    r.body.dates = [{ start := date_start, end_ := date_end,
                      type := JVal.jint date_type }] ∧
    r.body.statusIDs = statuses ∧
    r.limit = limit ∧
    r.offset = offset ∧
    (∀ f ∈ r.body.dates, ∃ n : Int, f.type = JVal.jint n) := by
  have he : r = buildRequest offset limit date_start date_end statuses date_type :=
    List.eq_of_mem_replicate hr
  subst he
  refine ⟨rfl, rfl, rfl, rfl, ?_⟩
  intro f hf
  simp only [buildRequest, List.mem_singleton] at hf
  subst hf
  exact ⟨date_type, rfl⟩

/-- Witness for C7 at a concrete request of a concrete call. -/
theorem c7_request_shape_witness :
    (buildRequest 0 1000 "2024-10-12T00:00:00+03:00" "2025-10-12T07:00:00+03:00"
        [1, 2, 3, 4, 5, 6] 1) ∈
      fetch_chunk_requests net200 0 0 1000 "2024-10-12T00:00:00+03:00"
        "2025-10-12T07:00:00+03:00" [1, 2, 3, 4, 5, 6] 1 ∧
    ((buildRequest 0 1000 "2024-10-12T00:00:00+03:00" "2025-10-12T07:00:00+03:00"
        [1, 2, 3, 4, 5, 6] 1).body.dates =
      [{ start := "2024-10-12T00:00:00+03:00", end_ := "2025-10-12T07:00:00+03:00",
         type := JVal.jint 1 }] ∧
     (buildRequest 0 1000 "2024-10-12T00:00:00+03:00" "2025-10-12T07:00:00+03:00"
        [1, 2, 3, 4, 5, 6] 1).body.statusIDs = [1, 2, 3, 4, 5, 6] ∧
     (buildRequest 0 1000 "2024-10-12T00:00:00+03:00" "2025-10-12T07:00:00+03:00"
        [1, 2, 3, 4, 5, 6] 1).limit = 1000 ∧
     (buildRequest 0 1000 "2024-10-12T00:00:00+03:00" "2025-10-12T07:00:00+03:00"
        [1, 2, 3, 4, 5, 6] 1).offset = 0 ∧
     (∀ f ∈ (buildRequest 0 1000 "2024-10-12T00:00:00+03:00"
        "2025-10-12T07:00:00+03:00" [1, 2, 3, 4, 5, 6] 1).body.dates,
       ∃ n : Int, f.type = JVal.jint n)) :=
  ⟨by decide, c7_request_shape net200 0 0 1000 _ _ _ 1 _ (by decide)⟩

/-- Whether a `Type` value uses the string-enum encoding. -/
def typeIsStr : JVal → Bool
  | .jstr _ => true
  | .jint _ => false

/-- Counterexample to C7 as stated: the request actually issued for the first
axis carries `Type` as the integer code `1`, not the canonical string enum
`"createDate"` — no date filter of the issued request has a string-typed
`Type`. -/
theorem c7_request_shape_counterexample :
    fetch_chunk_requests net200 0 0 1000 "a" "b" [1, 2, 3, 4, 5, 6] 1 =
      [buildRequest 0 1000 "a" "b" [1, 2, 3, 4, 5, 6] 1] ∧
    (buildRequest 0 1000 "a" "b" [1, 2, 3, 4, 5, 6] 1).body.dates.map
      DateFilter.type = [JVal.jint 1] ∧
    ((buildRequest 0 1000 "a" "b" [1, 2, 3, 4, 5, 6] 1).body.dates.all
      (fun f => typeIsStr f.type)) = false ∧
    JVal.jint 1 ≠ JVal.jstr "createDate" := by
  refine ⟨?_, rfl, rfl, by decide⟩
  rfl

/-- Helper of `pySplitComma`: accumulate the current token (reversed). -/
def pySplitCommaAux : List Char → List Char → List String
  | [], acc => [String.mk acc.reverse]
  | c :: rest, acc =>
    if c = ',' then String.mk acc.reverse :: pySplitCommaAux rest []
    else pySplitCommaAux rest (c :: acc)

/-- Python `s.split(",")` (so `"".split(",") = [""]`). -/
def pySplitComma (s : String) : List String :=
  pySplitCommaAux s.data []

/-- Lines 31 and 36: `[int(x) for x in s.split(",") if x.strip()]`.  `none`
models the `ValueError` the comprehension raises on an unparseable token
(which kills the process at import time, before any network call). -/
def parse_int_list (s : String) : Option (List Int) :=
  ((pySplitComma s).filter (fun t => pyStrip t ≠ "")).mapM pyIntOfStr

/-- The environment-sourced configuration surface (lines 20-36). -/
structure Env where
  wb_supplies_token : String
  supabase_url : String
  supabase_service_key : String
  statuses_env : String
  date_types_env : String
  supplies_days : Nat
deriving Repr

/-- Outcome of module import plus main's guards: either the process dies with
a message before any network call, or it proceeds into the fetch loop with the
parsed status and date-type lists. -/
inductive Startup where
  | fatal (msg : String)
  | proceed (statuses date_types : List Int)
deriving DecidableEq, Repr

/-- Module-level parses (lines 31, 36) followed by main's guards
(lines 132-137).  Note: the guards check the token, the Supabase credentials
and `DATE_TYPES`, but never `STATUSES`. -/
def startup (e : Env) : Startup :=
  match parse_int_list e.statuses_env with
  | none => .fatal "ValueError: invalid SUPPLIES_STATUSES"
  | some sts =>
    match parse_int_list e.date_types_env with
    | none => .fatal "ValueError: invalid SUPPLIES_DATE_TYPES"
    | some dts =>
      if e.wb_supplies_token = "" then .fatal "WB_SUPPLIES_TOKEN is empty"
      else if e.supabase_url = "" ∨ e.supabase_service_key = "" then
        .fatal "Supabase URL or SERVICE KEY is empty"
      else if dts = [] then
        .fatal "SUPPLIES_DATE_TYPES is empty or invalid (expect comma list like '1,2,3,4')"
      else .proceed sts dts

/-- One call against the store (lines 167 and 172). -/
inductive StoreOp where
  | deleteNeq (column value : String)
  | insertBatch (rows : List NRow)
deriving DecidableEq, Repr

/-- Outcome of the fetch phase: out of fuel (the adversarial remote kept the
Python loop running longer than the model's bound), fatal error, or done with
the merge mapping, the next global request index and the value of the
script's `total_requests` counter. -/
inductive FetchOut where
  | out_of_fuel
  | failed (msg : String) (nreq : Nat)
  | done (combined : List (String × NRow)) (base nreq : Nat)
deriving Repr

/-- Lines 153-162: the pagination loop of one axis against the response
stream `net`.  Each iteration performs one `fetch_chunk`, bumps
`total_requests`, merges the normalized rows and stops when a page holds
fewer than `LIMIT` records. -/
def axisFetch (net : Nat → Resp) : Nat → Nat → List (String × NRow) → Nat → FetchOut
  | 0, _, _, _ => .out_of_fuel
  | fuel + 1, base, combined, nreq =>
    match fetch_chunk net base with
    | (.error msg, used) => .failed msg (nreq + 1)
    | (.ok rows, used) =>
      let combined2 := (normalize_rows rows).foldl mergeStep combined
      if rows.length < LIMIT then .done combined2 (base + used) (nreq + 1)
      else axisFetch net fuel (base + used) combined2 (nreq + 1)

/-- Lines 152-162: the outer loop over the configured date types. -/
def axesFetch (net : Nat → Resp) (fuel : Nat) :
    List Int → Nat → List (String × NRow) → Nat → FetchOut
  | [], _, combined, nreq => .done combined 0 nreq
  | _dt :: rest, base, combined, nreq =>
    match axisFetch net fuel base combined nreq with
    | .out_of_fuel => .out_of_fuel
    | .failed msg n => .failed msg n
    | .done combined2 base2 n2 => axesFetch net fuel rest base2 combined2 n2

/-- Lines 126-128: Python's `chunked`, i.e. the slices
`seq[i : i + size]` for `i = 0, size, 2*size, ...` (`size > 0`; the script
always passes 500). -/
def chunked (seq : List NRow) (size : Nat) : List (List NRow) :=
  (List.range ((seq.length + size - 1) / size)).map
    (fun i => (seq.drop (i * size)).take size)

/-- The observable result of one run: the process outcome (unique-count and
inserted-count on success), the store calls issued, and the script's
`total_requests` counter. -/
structure RunResult where
  outcome : Except String (Nat × Nat)
  ops : List StoreOp
  total_requests : Nat
deriving Repr

/-- Lines 131-176: the whole `main`, parametrized by the response stream and
a fuel bound on loop iterations (`none` = the Python loop would still be
running).  The store is touched only after the fetch loop over every axis has
completed: an unconditional-in-intent delete (line 167, predicate
`wb_key ≠ ""`), then one insert per 500-batch of the mapping's values
(lines 169-173). -/
def mainRun (e : Env) (net : Nat → Resp) (fuel : Nat) : Option RunResult :=
  match startup e with
  | .fatal m => some { outcome := .error m, ops := [], total_requests := 0 }
  | .proceed _sts dts =>
    match axesFetch net fuel dts 0 [] 0 with
    | .out_of_fuel => none
    | .failed m n => some { outcome := .error m, ops := [], total_requests := n }
    | .done combined _ n =>
      let payload := combined.map Prod.snd
      some { outcome := .ok (combined.length, payload.length)
             ops := StoreOp.deleteNeq "wb_key" "" ::
               (chunked payload 500).map StoreOp.insertBatch
             total_requests := n }

/-- Claim C5 (amended): an unparseable status list or an unparseable or empty
axis (date-type) list kills the run before any network call — zero requests
are issued and no store call happens.  (An *empty* status list, by contrast,
is not validated; see the counterexample.) -/
theorem c5_config_validation (e : Env) :
    (parse_int_list e.statuses_env = none → ∃ m, startup e = .fatal m) ∧
    (parse_int_list e.date_types_env = none → ∃ m, startup e = .fatal m) ∧
    (∀ sts, parse_int_list e.statuses_env = some sts →
      parse_int_list e.date_types_env = some [] → ∃ m, startup e = .fatal m) ∧
    (∀ m net fuel, startup e = .fatal m →
      mainRun e net fuel =
        some { outcome := .error m, ops := [], total_requests := 0 }) := by
  refine ⟨?_, ?_, ?_, ?_⟩
  · intro h
    exact ⟨_, by rw [startup, h]⟩
  · intro h
    cases hs : parse_int_list e.statuses_env with
    | none => exact ⟨_, by rw [startup, hs]⟩
    | some sts => exact ⟨_, by rw [startup, hs, h]⟩
  · intro sts hs hd
    by_cases h1 : e.wb_supplies_token = ""
    · exact ⟨"WB_SUPPLIES_TOKEN is empty",
        by simp only [startup, hs, hd]; rw [if_pos h1]⟩
    · by_cases h2 : e.supabase_url = "" ∨ e.supabase_service_key = ""
      · exact ⟨"Supabase URL or SERVICE KEY is empty",
          by simp only [startup, hs, hd]; rw [if_neg h1, if_pos h2]⟩
      · exact ⟨"SUPPLIES_DATE_TYPES is empty or invalid (expect comma list like '1,2,3,4')",
          by simp only [startup, hs, hd]; rw [if_neg h1, if_neg h2, if_pos trivial]⟩
  · intro m net fuel h
    simp only [mainRun, h]

/-- A syntactically valid environment whose status list is *empty*: the
`SUPPLIES_STATUSES` value parses to `[]`. -/
def envEmptyStatuses : Env :=
  { wb_supplies_token := "token"
    supabase_url := "https://x.supabase.co"
    supabase_service_key := "service"
    statuses_env := ""
    date_types_env := "1,2,3,4"
    supplies_days := 365 }

/-- Counterexample to C5 as stated: with an empty (yet parseable) status set
the run does NOT fail before the network — startup proceeds with
`statuses = []`, and against a remote that answers every request with an empty
page the run issues 4 requests (one per axis) and reaches the store's delete
call. -/
theorem c5_config_validation_counterexample :
    parse_int_list envEmptyStatuses.statuses_env = some [] ∧
    startup envEmptyStatuses = Startup.proceed [] [1, 2, 3, 4] ∧
    mainRun envEmptyStatuses net200 5 =
      some { outcome := .ok (0, 0)
             ops := [StoreOp.deleteNeq "wb_key" ""]
             total_requests := 4 } := by
  refine ⟨by rfl, by rfl, by rfl⟩

/-- Witness for C5 (amended) at concrete environments: unparseable statuses,
unparseable date types, and an empty date-type list each die before the fetch
loop; the fatal path issues no request and no store call. -/
theorem c5_config_validation_witness :
    (∃ m, startup { envEmptyStatuses with statuses_env := "abc" } = .fatal m) ∧
    (∃ m, startup { envEmptyStatuses with date_types_env := "zzz" } = .fatal m) ∧
    (∃ m, startup { envEmptyStatuses with date_types_env := "" } = .fatal m) ∧
    mainRun { envEmptyStatuses with date_types_env := "" } net200 5 =
      some { outcome := .error
               "SUPPLIES_DATE_TYPES is empty or invalid (expect comma list like '1,2,3,4')"
             ops := []
             total_requests := 0 } :=
  ⟨(c5_config_validation _).1 (by rfl),
   (c5_config_validation _).2.1 (by rfl),
   (c5_config_validation _).2.2.1 [] (by rfl) (by rfl),
   (c5_config_validation _).2.2.2 _ net200 5 (by rfl)⟩

/-- Claim C10: if any `fetch_chunk` call terminates the run fatally (non-200
response, exhausted 429 retries, or a 200 body that is not a list), no store
call is issued at all — the delete and the inserts happen only after the
fetch loop over every configured axis has completed. -/
theorem c10_fetch_atomicity (e : Env) (net : Nat → Resp) (fuel : Nat) :
    (∀ sts dts m n, startup e = .proceed sts dts →
      axesFetch net fuel dts 0 [] 0 = .failed m n →
      mainRun e net fuel =
        some { outcome := .error m, ops := [], total_requests := n }) ∧
    (∀ res m, mainRun e net fuel = some res → res.outcome = .error m →
      res.ops = []) := by
  constructor
  · intro sts dts m n hs hf
    simp only [mainRun, hs, hf]
  · intro res m hres houtcome
    rw [mainRun] at hres
    cases hstart : startup e with
    | fatal msg =>
      simp only [hstart] at hres
      injection hres with h2
      subst h2
      rfl
    | proceed sts dts =>
      simp only [hstart] at hres
      cases haxes : axesFetch net fuel dts 0 [] 0 with
      | out_of_fuel =>
        simp only [haxes] at hres
        exact Option.noConfusion hres
      | failed msg n =>
        simp only [haxes] at hres
        injection hres with h2
        subst h2
        rfl
      | done combined base n =>
        simp only [haxes] at hres
        injection hres with h2
        subst h2
        simp at houtcome

/-- Witness for C10: a remote that always answers 500 kills the run on the
first page of the first axis, and the result carries no store operation. -/
theorem c10_fetch_atomicity_witness :
    mainRun envEmptyStatuses net500 3 =
      some { outcome := .error "WB API 500: internal error"
             ops := [], total_requests := 1 } ∧
    ({ outcome := .error "WB API 500: internal error"
       ops := ([] : List StoreOp), total_requests := 1 } : RunResult).ops = [] :=
  ⟨(c10_fetch_atomicity envEmptyStatuses net500 3).1 [] [1, 2, 3, 4]
      "WB API 500: internal error" 1 (by rfl) (by rfl),
   (c10_fetch_atomicity envEmptyStatuses net500 3).2
      { outcome := .error "WB API 500: internal error"
        ops := [], total_requests := 1 } "WB API 500: internal error"
      ((c10_fetch_atomicity envEmptyStatuses net500 3).1 [] [1, 2, 3, 4]
        "WB API 500: internal error" 1 (by rfl) (by rfl)) (by rfl)⟩

/-- Claim C2: inserting two normalized records with the same identity key into
the merge mapping yields exactly one entry for that key, whose value is the
later-processed record; bindings at every other key are untouched, so records
with distinct keys are never lost; and the dict invariant is preserved. -/
theorem c2_merge_last_write_wins (m : List (String × NRow)) (a b : NRow)
    (hk : a.wb_key = b.wb_key) (hm : nodupKeys m) :
    countKey (mergeStep (mergeStep m a) b) b.wb_key = 1 ∧
    dictFind (mergeStep (mergeStep m a) b) b.wb_key = some b ∧
    (∀ k2, k2 ≠ b.wb_key →
      dictFind (mergeStep (mergeStep m a) b) k2 = dictFind m k2) ∧
    (∀ k2, k2 ≠ b.wb_key →
      countKey (mergeStep (mergeStep m a) b) k2 = countKey m k2) ∧
    nodupKeys (mergeStep (mergeStep m a) b) := by
  have hma : nodupKeys (mergeStep m a) := nodupKeys_mergeStep m a hm
  refine ⟨countKey_dictInsert_self _ _ _ hma,
          dictFind_dictInsert_self _ _ _, ?_, ?_, nodupKeys_mergeStep _ b hma⟩
  · intro k2 hk2
    rw [mergeStep, dictFind_dictInsert_other _ _ _ _ hk2, mergeStep,
      dictFind_dictInsert_other _ _ _ _ (hk ▸ hk2)]
  · intro k2 hk2
    rw [mergeStep, countKey_dictInsert_other _ _ _ _ hk2, mergeStep,
      countKey_dictInsert_other _ _ _ _ (hk ▸ hk2)]

/-- Witness for C2: the same key merged twice (as from two axes) keeps exactly
one entry, equal to the later occurrence. -/
theorem c2_merge_last_write_wins_witness :
    countKey (mergeStep (mergeStep []
        { wb_key := "S:2", status_id := some 1 })
        { wb_key := "S:2", status_id := some 5 }) "S:2" = 1 ∧
    dictFind (mergeStep (mergeStep []
        { wb_key := "S:2", status_id := some 1 })
        { wb_key := "S:2", status_id := some 5 }) "S:2" =
      some { wb_key := "S:2", status_id := some 5 } := by
  have h := c2_merge_last_write_wins []
    { wb_key := "S:2", status_id := some 1 }
    { wb_key := "S:2", status_id := some 5 }
    rfl (by simp [nodupKeys])
  exact ⟨h.1, h.2.1⟩

/-- The predicate of line 167's `delete().neq("wb_key", "")`: a stored row is
deleted when its `wb_key` differs from the empty string. -/
def deletePred (r : NRow) : Bool :=
  r.wb_key != ""

/-- Line 167: the delete phase; the rows that survive it. -/
def deletePhase (table : List NRow) : List NRow :=
  table.filter (fun r => !(deletePred r))

/-- Lines 166-175: delete phase, then batched insert of the mapping's values
(`chunked(payload, 500)`); returns the final table contents and the reported
`inserted` counter (the sum of the batch sizes). -/
def runReconcile (table : List NRow) (combined : List (String × NRow)) :
    List NRow × Nat :=
  let payload := combined.map Prod.snd
  (deletePhase table ++ (chunked payload 500).flatten,
   ((chunked payload 500).map List.length).sum)

theorem string_append_data (a b : String) : (a ++ b).data = a.data ++ b.data := by
  cases a
  cases b
  rfl

theorem string_prefixed_ne_empty (pre s : String) (h : pre.data ≠ []) :
    pre ++ s ≠ "" := by
  intro he
  apply h
  have hd : (pre ++ s).data = ([] : List Char) := by rw [he]
  rw [string_append_data] at hd
  exact (List.append_eq_nil.mp hd).1

theorem chunked_cons_500 (seq : List NRow) (h : 0 < seq.length) :
    chunked seq 500 = seq.take 500 :: chunked (seq.drop 500) 500 := by
  unfold chunked
  have hcount : (seq.length + 500 - 1) / 500 =
      ((seq.drop 500).length + 500 - 1) / 500 + 1 := by
    rw [List.length_drop]
    omega
  rw [hcount, List.range_succ_eq_map, List.map_cons, List.map_map]
  refine congrArg₂ List.cons (by simp) ?_
  apply List.map_congr_left
  intro i _
  simp only [Function.comp_apply, Nat.succ_eq_add_one]
  rw [List.drop_drop]
  ring_nf

theorem chunked_join_500 (seq : List NRow) : (chunked seq 500).flatten = seq := by
  by_cases h : seq.length = 0
  · have hnil : seq = [] := List.length_eq_zero.mp h
    subst hnil
    rfl
  · rw [chunked_cons_500 seq (by omega), List.flatten_cons,
      chunked_join_500 (seq.drop 500)]
    exact List.take_append_drop 500 seq
termination_by seq.length
decreasing_by
  simp only [List.length_drop]
  omega

theorem chunked_batch_le_500 (seq : List NRow) :
    ∀ b ∈ chunked seq 500, b.length ≤ 500 := by
  intro b hb
  unfold chunked at hb
  rw [List.mem_map] at hb
  obtain ⟨i, _, hbi⟩ := hb
  subst hbi
  simp only [List.length_take]
  omega

theorem chunked_inserted_500 (seq : List NRow) :
    ((chunked seq 500).map List.length).sum = seq.length := by
  have hflat : (chunked seq 500).flatten.length = seq.length :=
    congrArg List.length (chunked_join_500 seq)
  rw [List.length_flatten] at hflat
  exact hflat

/-- Claim C8: after a successful run whose pre-existing rows all carry a
non-empty identity key (which every row this program ever inserts does, by
C9's invariant), the delete phase removes every existing row; the final table
is exactly the merged mapping's values, so its row count equals the mapping's
size and every stored row's `wb_key` is unique; the inserts go out in batches
of at most 500; and the reported inserted count equals the mapping size. -/
theorem c8_reconciliation_completeness (table : List NRow) (items : List NRow)
    (htable : ∀ r ∈ table, r.wb_key ≠ "") :
    deletePhase table = [] ∧
    (runReconcile table (mergeAll items)).1 = (mergeAll items).map Prod.snd ∧
    (runReconcile table (mergeAll items)).1.length = (mergeAll items).length ∧
    ((runReconcile table (mergeAll items)).1.map (fun r => r.wb_key)).Nodup ∧
    (runReconcile table (mergeAll items)).2 = (mergeAll items).length ∧
    (∀ b ∈ chunked ((mergeAll items).map Prod.snd) 500, b.length ≤ 500) := by
  have hdel : deletePhase table = [] := by
    rw [deletePhase, List.filter_eq_nil_iff]
    intro r hr
    simp [deletePred, htable r hr]
  have hfinal : (runReconcile table (mergeAll items)).1 =
      (mergeAll items).map Prod.snd := by
    show deletePhase table ++ (chunked ((mergeAll items).map Prod.snd) 500).flatten =
      (mergeAll items).map Prod.snd
    rw [hdel, chunked_join_500, List.nil_append]
  have hkeys : ((mergeAll items).map Prod.snd).map (fun r => r.wb_key) =
      (mergeAll items).map Prod.fst := by
    rw [List.map_map]
    apply List.map_congr_left
    intro p hp
    exact ((mergeAll_invariants items).2 p hp).symm
  refine ⟨hdel, hfinal, ?_, ?_, ?_, chunked_batch_le_500 _⟩
  · rw [hfinal, List.length_map]
  · rw [hfinal, hkeys]
    exact (mergeAll_invariants items).1
  · show ((chunked ((mergeAll items).map Prod.snd) 500).map List.length).sum =
      (mergeAll items).length
    rw [chunked_inserted_500, List.length_map]

/-- Witness for C8 at a concrete table and item list (with one duplicate
key among the items). -/
theorem c8_reconciliation_completeness_witness :
    (∀ r ∈ [({ wb_key := "S:9" } : NRow)], r.wb_key ≠ "") ∧
    (deletePhase [({ wb_key := "S:9" } : NRow)] = [] ∧
     (runReconcile [({ wb_key := "S:9" } : NRow)]
        (mergeAll (normalize_rows [rawOfId 1, rawOfId 2, rawOfId 1]))).1 =
       (mergeAll (normalize_rows [rawOfId 1, rawOfId 2, rawOfId 1])).map Prod.snd ∧
     (runReconcile [({ wb_key := "S:9" } : NRow)]
        (mergeAll (normalize_rows [rawOfId 1, rawOfId 2, rawOfId 1]))).1.length =
       (mergeAll (normalize_rows [rawOfId 1, rawOfId 2, rawOfId 1])).length ∧
     ((runReconcile [({ wb_key := "S:9" } : NRow)]
        (mergeAll (normalize_rows [rawOfId 1, rawOfId 2, rawOfId 1]))).1.map
          (fun r => r.wb_key)).Nodup ∧
     (runReconcile [({ wb_key := "S:9" } : NRow)]
        (mergeAll (normalize_rows [rawOfId 1, rawOfId 2, rawOfId 1]))).2 =
       (mergeAll (normalize_rows [rawOfId 1, rawOfId 2, rawOfId 1])).length ∧
     (∀ b ∈ chunked ((mergeAll (normalize_rows [rawOfId 1, rawOfId 2, rawOfId 1])).map
          Prod.snd) 500, b.length ≤ 500)) :=
  ⟨by decide, c8_reconciliation_completeness [{ wb_key := "S:9" }]
    (normalize_rows [rawOfId 1, rawOfId 2, rawOfId 1]) (by decide)⟩

/-- Claim C9: every record produced by normalization carries a `wb_key` that
begins with `"S:"` or `"P:"` and is in particular non-empty, so every row this
program inserts satisfies the delete predicate `wb_key ≠ ""` of the
reconciliation delete phase — the nominally unconditional delete covers all
program-inserted rows (none of them can survive it). -/
theorem c9_wb_key_invariant (r : Raw) (table : List NRow) :
    (∃ s, (normalize_row r).wb_key = "S:" ++ s ∨
          (normalize_row r).wb_key = "P:" ++ s) ∧
    (normalize_row r).wb_key ≠ "" ∧
    deletePred (normalize_row r) = true ∧
    normalize_row r ∉ deletePhase table := by
  have hpre : ∃ s, (normalize_row r).wb_key = "S:" ++ s ∨
      (normalize_row r).wb_key = "P:" ++ s := by
    cases hs : r.supplyID with
    | some v =>
      refine ⟨keyRender v, Or.inl ?_⟩
      simp [normalize_row, wb_key_of, hs]
    | none =>
      refine ⟨keyRender (r.preorderID.getD (JVal.jint 0)), Or.inr ?_⟩
      simp [normalize_row, wb_key_of, hs]
  have hne : (normalize_row r).wb_key ≠ "" := by
    obtain ⟨s, hs | hs⟩ := hpre
    · rw [hs]
      exact string_prefixed_ne_empty "S:" s (by decide)
    · rw [hs]
      exact string_prefixed_ne_empty "P:" s (by decide)
  have hdp : deletePred (normalize_row r) = true := by
    simp [deletePred, hne]
  refine ⟨hpre, hne, hdp, ?_⟩
  intro hmem
  rw [deletePhase, List.mem_filter] at hmem
  rw [hdp] at hmem
  simp at hmem

/-- Witness for C9 at concrete inputs: a supply-keyed and a preorder-keyed
record against a concrete table. -/
theorem c9_wb_key_invariant_witness :
    ((∃ s, (normalize_row (rawOfId 4)).wb_key = "S:" ++ s ∨
           (normalize_row (rawOfId 4)).wb_key = "P:" ++ s) ∧
     (normalize_row (rawOfId 4)).wb_key ≠ "" ∧
     deletePred (normalize_row (rawOfId 4)) = true ∧
     normalize_row (rawOfId 4) ∉ deletePhase [normalize_row (rawOfId 4)]) :=
  c9_wb_key_invariant (rawOfId 4) [normalize_row (rawOfId 4)]

/-- Microseconds per second (Python datetimes have microsecond precision). -/
def usecPerSec : Nat := 1000000

/-- Microseconds per day. -/
def usecPerDay : Nat := 86400000000

/-- Days-since-1970-01-01 to `(year, month, day)` in the proleptic Gregorian
calendar — the conversion Python's `datetime` performs when formatting.  An
instant is represented as microseconds since the MSK epoch
1970-01-01T00:00:00+03:00, so no zone arithmetic is needed: the script only
ever handles UTC+3-aware datetimes (lines 49-54). -/
def civilFromDays (z : Nat) : Nat × Nat × Nat :=
  let zz := z + 719468
  let era := zz / 146097
  let doe := zz % 146097
  let yoe := (doe - doe / 1460 + doe / 36524 - doe / 146096) / 365
  let y := yoe + era * 400
  let doy := doe - (365 * yoe + yoe / 4 - yoe / 100)
  let mp := (5 * doy + 2) / 153
  let d := doy - (153 * mp + 2) / 5 + 1
  let m := if mp < 10 then mp + 3 else mp - 9
  (if m ≤ 2 then y + 1 else y, m, d)

/-- Zero-padded two-digit rendering. -/
def pad2 (n : Nat) : String :=
  if n < 10 then "0" ++ toString n else toString n

/-- Zero-padded four-digit rendering. -/
def pad4 (n : Nat) : String :=
  if n < 10 then "000" ++ toString n
  else if n < 100 then "00" ++ toString n
  else if n < 1000 then "0" ++ toString n
  else toString n

/-- The `YYYY-MM-DD` part of the ISO rendering. -/
def isoDate (ymd : Nat × Nat × Nat) : String :=
  pad4 ymd.1 ++ "-" ++ pad2 ymd.2.1 ++ "-" ++ pad2 ymd.2.2

/-- The `HH:MM:SS` part of the ISO rendering, from seconds-of-day. -/
def isoTime (sod : Nat) : String :=
  pad2 (sod / 3600) ++ ":" ++ pad2 (sod % 3600 / 60) ++ ":" ++ pad2 (sod % 60)

/-- Lines 52-54: `dt.isoformat(timespec="seconds")` for a UTC+3-aware
datetime given as microseconds since the MSK epoch: second-precision ISO-8601
with the explicit `+03:00` offset, microseconds dropped. -/
def msk_iso (t : Nat) : String :=
  isoDate (civilFromDays (t / usecPerSec / 86400)) ++ "T" ++
    isoTime (t / usecPerSec % 86400) ++ "+03:00"

/-- Line 142's `replace(hour=0, minute=0, second=0, microsecond=0)`: the MSK
midnight of the instant's day. -/
def mskMidnight (t : Nat) : Nat :=
  t - t % usecPerDay

/-- Line 141-142: `date_start`'s instant — midnight of the day `days` days
before the run start `now`. -/
def windowStart (now days : Nat) : Nat :=
  mskMidnight (now - days * usecPerDay)

/-- Line 140 and 143: `date_end`'s instant is the run's wall-clock start. -/
def windowEnd (now days : Nat) : Nat :=
  now

/-- Line 142: the formatted `date_start`. -/
def date_start_str (now days : Nat) : String :=
  msk_iso (windowStart now days)

/-- Line 143: the formatted `date_end`. -/
def date_end_str (now days : Nat) : String :=
  msk_iso (windowEnd now days)

/-- Claim C6: for every run starting at MSK instant `now` (at least
`days` days after the epoch), `date_start` is a midnight (00:00:00) instant in
UTC+3 and is rendered with time part `T00:00:00` and explicit offset `+03:00`;
`date_end` is the run's wall-clock start, rendered second-precision (the
rendering ignores the sub-second part) with explicit offset; and the window
length in days equals the configured lookback `days` (`SUPPLIES_DAYS`): both
the floor-of-days length of `[date_start, date_end)` and the calendar-day
difference are exactly `days`. -/
theorem c6_sync_window (now days : Nat) (h : days * usecPerDay ≤ now) :
    windowStart now days % usecPerDay = 0 ∧
    (∃ dpart, date_start_str now days = dpart ++ "T00:00:00+03:00") ∧
    (∃ p1, date_start_str now days = p1 ++ "+03:00") ∧
    (∃ p2, date_end_str now days = p2 ++ "+03:00") ∧
    windowEnd now days = now ∧
    msk_iso now = msk_iso (usecPerSec * (now / usecPerSec)) ∧
    (windowEnd now days - windowStart now days) / usecPerDay = days ∧
    windowEnd now days / usecPerDay - windowStart now days / usecPerDay = days := by
  have hmid : windowStart now days % usecPerDay = 0 := by
    simp only [windowStart, mskMidnight, usecPerDay]
    omega
  have hsod : windowStart now days / usecPerSec % 86400 = 0 := by
    simp only [windowStart, mskMidnight, usecPerSec, usecPerDay] at hmid ⊢
    omega
  refine ⟨hmid, ?_, ?_, ?_, rfl, ?_, ?_, ?_⟩
  · refine ⟨isoDate (civilFromDays (windowStart now days / usecPerSec / 86400)), ?_⟩
    rw [date_start_str, msk_iso, hsod]
    have htime : isoTime 0 = "00:00:00" := by rfl
    rw [htime]
    have hcat : ∀ a : String, a ++ "T" ++ "00:00:00" ++ "+03:00" =
        a ++ "T00:00:00+03:00" := by
      intro a
      have hd : (a ++ "T" ++ "00:00:00" ++ "+03:00").data =
          (a ++ "T00:00:00+03:00").data := by
        show a.data ++ "T".data ++ "00:00:00".data ++ "+03:00".data =
          a.data ++ "T00:00:00+03:00".data
        simp [List.append_assoc]
      cases hx : (a ++ "T" ++ "00:00:00" ++ "+03:00")
      cases hy : (a ++ "T00:00:00+03:00")
      rw [hx, hy] at hd
      simp_all
    exact hcat _
  · exact ⟨isoDate (civilFromDays (windowStart now days / usecPerSec / 86400)) ++
      "T" ++ isoTime (windowStart now days / usecPerSec % 86400), rfl⟩
  · exact ⟨isoDate (civilFromDays (windowEnd now days / usecPerSec / 86400)) ++
      "T" ++ isoTime (windowEnd now days / usecPerSec % 86400), rfl⟩
  · have hq : usecPerSec * (now / usecPerSec) / usecPerSec = now / usecPerSec := by
      simp only [usecPerSec]
      omega
    rw [msk_iso, msk_iso, hq]
  · simp only [windowStart, windowEnd, mskMidnight, usecPerDay] at *
    omega
  · simp only [windowStart, windowEnd, mskMidnight, usecPerDay] at *
    omega

/-- Witness for C6 at a concrete run start (2025-10-12 morning MSK, in
microseconds since the MSK epoch) with the default 365-day lookback. -/
theorem c6_sync_window_witness :
    365 * usecPerDay ≤ 1760246115000000 ∧
    (windowStart 1760246115000000 365 % usecPerDay = 0 ∧
     (∃ dpart, date_start_str 1760246115000000 365 = dpart ++ "T00:00:00+03:00") ∧
     (∃ p1, date_start_str 1760246115000000 365 = p1 ++ "+03:00") ∧
     (∃ p2, date_end_str 1760246115000000 365 = p2 ++ "+03:00") ∧
     windowEnd 1760246115000000 365 = 1760246115000000 ∧
     msk_iso 1760246115000000 =
       msk_iso (usecPerSec * (1760246115000000 / usecPerSec)) ∧
     (windowEnd 1760246115000000 365 - windowStart 1760246115000000 365) /
       usecPerDay = 365 ∧
     windowEnd 1760246115000000 365 / usecPerDay -
       windowStart 1760246115000000 365 / usecPerDay = 365) :=
  ⟨by decide, c6_sync_window 1760246115000000 365 (by decide)⟩

end FbwSupplies
